import Mathlib

/-!
Shallow embedding of the Quotation Manager pricing and numbering engine
(src/quotation/models.py, serializers.py, views.py, admin.py).

Conventions of the embedding:
* Python `Decimal` values are modelled as `ℚ` (exact decimal arithmetic is a
  subset of rational arithmetic).  The float conversions in views.py are also
  modelled as `ℚ`.
* Python strings are Lean `String`s; the helpers `pstrip`, `pytitle`,
  `pyStartsWith` and `natStr` model `str.strip()`, `str.title()`,
  `str.startswith()` and `str(int)` / f-string formatting of a non-negative
  integer (restricted to ASCII, which is all the validated data can contain).
* `int(s)` inside the `try/except` of `generate_quotation_number` is modelled
  by `pyInt` (digits-only parse; any other shape falls back to 0 exactly as
  the `except` clause does).
* Django model rows are records; the database table of quotations is a
  `List QRow`; JSON item dicts are `Item` records (every required key
  present; the optional `id` key written by the views is `Option Nat`).
* Stateful endpoints are functions from the current state (plus the request
  payload and the ambient date/database parameters) to a response together
  with the state that is persisted after the call.
-/

namespace QuotationManager

/-- Python whitespace class used by `str.strip()` and by `\s` in the
regular expressions: space, tab, newline, carriage return, vertical tab,
form feed. -/
def pyspace (c : Char) : Bool :=
  c = ' ' || c = Char.ofNat 9 || c = Char.ofNat 10 || c = Char.ofNat 13 ||
  c = Char.ofNat 11 || c = Char.ofNat 12

/-- `str.strip()`: drop leading and trailing whitespace. -/
def pstrip (s : String) : String :=
  ⟨((s.data.dropWhile pyspace).reverse.dropWhile pyspace).reverse⟩

/-- Character-by-character worker for `str.title()`: a letter that follows a
letter is lower-cased, a letter that follows a non-letter is upper-cased. -/
def pytitleGo : Bool → List Char → List Char
  | _, [] => []
  | prev, c :: cs =>
    if c.isAlpha then
      (if prev then c.toLower else c.toUpper) :: pytitleGo true cs
    else
      c :: pytitleGo false cs

/-- `str.title()` (ASCII). -/
def pytitle (s : String) : String := ⟨pytitleGo false s.data⟩

/-- `s.startswith(p)` in Python, via the underlying character lists. -/
def pyStartsWith (p s : String) : Bool := p.data.isPrefixOf s.data

/-- Decimal digit character for a digit value `d < 10`. -/
def digitChar (d : Nat) : Char := Char.ofNat (48 + d)

/-- Fuel-driven worker for the little-endian decimal digit list (structural
recursion so that it reduces inside the kernel). -/
def toDigitsLEGo (fuel n : Nat) : List Char :=
  match fuel with
  | 0 => []
  | fuel + 1 =>
    if n < 10 then [digitChar n]
    else digitChar (n % 10) :: toDigitsLEGo fuel (n / 10)

/-- Little-endian decimal digit list of a natural number. -/
def toDigitsLE (n : Nat) : List Char := toDigitsLEGo (n + 1) n

theorem toDigitsLEGo_irrel :
    ∀ (f1 : Nat), ∀ {n : Nat}, n < f1 → ∀ (f2 : Nat), n < f2 →
      toDigitsLEGo f1 n = toDigitsLEGo f2 n := by
  intro f1
  induction f1 with
  | zero => intro n h; omega
  | succ f1 ih =>
    intro n h f2 h2
    cases f2 with
    | zero => omega
    | succ f2 =>
      simp only [toDigitsLEGo]
      by_cases hn : n < 10
      · simp [hn]
      · simp only [if_neg hn]
        have hlt : n / 10 < n := Nat.div_lt_self (by omega) (by omega)
        rw [ih (by omega) f2 (by omega)]

/-- The recursive unfolding of `toDigitsLE`. -/
theorem toDigitsLE_eq (n : Nat) :
    toDigitsLE n =
      if n < 10 then [digitChar n]
      else digitChar (n % 10) :: toDigitsLE (n / 10) := by
  unfold toDigitsLE
  rw [show toDigitsLEGo (n + 1) n =
        if n < 10 then [digitChar n]
        else digitChar (n % 10) :: toDigitsLEGo n (n / 10) from rfl]
  by_cases hn : n < 10
  · simp [hn]
  · rw [if_neg hn, if_neg hn]
    have hlt : n / 10 < n := Nat.div_lt_self (by omega) (by omega)
    rw [toDigitsLEGo_irrel n (by omega) (n / 10 + 1) (by omega)]

/-- `str(n)` / f-string rendering of a non-negative integer. -/
def natStr (n : Nat) : String := ⟨(toDigitsLE n).reverse⟩

/-- Numeric value of a little-endian digit list (inverse of `toDigitsLE`). -/
def valLE : List Char → Nat
  | [] => 0
  | c :: cs => (c.toNat - 48) + 10 * valLE cs

/-- Numeric value of a big-endian digit list, folding like `int(s)` does. -/
def valBE (l : List Char) : Nat := l.foldl (fun a c => 10 * a + (c.toNat - 48)) 0

/-- `int(s)` restricted to plain ASCII digit strings (the only shape that
occurs in generated quotation numbers); any other string is `none`, which the
caller turns into the `except`-clause fallback value 0. -/
def pyInt (s : String) : Option Nat :=
  if s.data ≠ [] ∧ s.data.all Char.isDigit then some (valBE s.data) else none

theorem valLE_toDigitsLE (n : Nat) : valLE (toDigitsLE n) = n := by
  induction n using Nat.strong_induction_on with
  | _ n ih =>
    rw [toDigitsLE_eq]
    split
    · next h =>
      simp only [valLE]
      interval_cases n <;> decide
    · next h =>
      have hd : n / 10 < n := Nat.div_lt_self (by omega) (by omega)
      have := ih (n / 10) hd
      simp only [valLE, this]
      have hdig : (digitChar (n % 10)).toNat - 48 = n % 10 := by
        have : n % 10 < 10 := Nat.mod_lt _ (by omega)
        interval_cases h2 : n % 10 <;> decide
      omega

theorem toDigitsLE_injective : Function.Injective toDigitsLE := by
  intro a b h
  have := valLE_toDigitsLE a
  rw [h, valLE_toDigitsLE] at this
  omega

theorem natStr_injective : Function.Injective natStr := by
  intro a b h
  have : (toDigitsLE a).reverse = (toDigitsLE b).reverse := congrArg String.data h
  exact toDigitsLE_injective (List.reverse_injective this)

theorem toDigitsLE_all_digit (n : Nat) : ∀ c ∈ toDigitsLE n, c.isDigit = true := by
  induction n using Nat.strong_induction_on with
  | _ n ih =>
    rw [toDigitsLE_eq]
    split
    · next h =>
      intro c hc
      simp only [List.mem_singleton] at hc
      subst hc
      interval_cases n <;> decide
    · next h =>
      intro c hc
      simp only [List.mem_cons] at hc
      rcases hc with hc | hc
      · subst hc
        have : n % 10 < 10 := Nat.mod_lt _ (by omega)
        interval_cases h2 : n % 10 <;> decide
      · exact ih (n / 10) (Nat.div_lt_self (by omega) (by omega)) c hc

theorem toDigitsLE_length_le {k n : Nat} (hk : 0 < k) (hn : n < 10 ^ k) :
    (toDigitsLE n).length ≤ k := by
  induction k generalizing n with
  | zero => omega
  | succ k ih =>
    rw [toDigitsLE_eq]
    split
    · simp
    · next h =>
      have hk' : 0 < k := by
        by_contra hc
        have : k = 0 := by omega
        subst this
        simp at hn
        omega
      have : n / 10 < 10 ^ k := by
        rw [Nat.div_lt_iff_lt_mul (by omega)]
        calc n < 10 ^ (k + 1) := hn
        _ = 10 ^ k * 10 := by ring
      have := ih hk' this
      simp only [List.length_cons]
      omega

theorem le_toDigitsLE_length {k n : Nat} (hn : 10 ^ k ≤ n) :
    k < (toDigitsLE n).length := by
  induction k generalizing n with
  | zero =>
    rw [toDigitsLE_eq]
    split <;> simp
  | succ k ih =>
    rw [toDigitsLE_eq]
    split
    · next h =>
      exfalso
      have : 10 ≤ 10 ^ (k + 1) := by
        calc 10 = 10 ^ 1 := by norm_num
        _ ≤ 10 ^ (k + 1) := Nat.pow_le_pow_right (by omega) (by omega)
      omega
    · next h =>
      have : 10 ^ k ≤ n / 10 := by
        rw [Nat.le_div_iff_mul_le (by omega)]
        calc 10 ^ k * 10 = 10 ^ (k + 1) := by ring
        _ ≤ n := hn
      have := ih this
      simp only [List.length_cons]
      omega

/-!  Data model: JSON item dicts and the Quotation row (models.py). -/

/-- One entry of the `items` JSON list (models.py line 58, and the dicts
built by views.py `add_item`).  All keys required by `clean_items` are
present; the `id` key is written only by the views, hence `Option Nat`. -/
structure Item where
  id : Option Nat
  name : String
  qty : ℚ
  rate : ℚ
  discount_type : String
  discount_value : ℚ
  unit : String
  custom_unit : String
deriving Repr, DecidableEq

/-- The columns of the `Quotation` model that the engine reads or writes
(models.py lines 23-61); `quotation_number` and `validity_date` are nullable
(`none` also stands for Django's blank value). -/
structure MQuotation where
  quotation_number : Option String
  validity_date : Option Nat
  status : String
  subtotal_discount : ℚ
  vat : ℚ
  items : List Item
deriving Repr, DecidableEq

/-- `STATUS_CHOICES` (models.py lines 13-18).  Note `closed` is absent even
though views.py writes it. -/
def STATUS_CHOICES : List String := ["draft", "pending", "approved", "rejected"]

/-- One persisted quotation row as seen by `generate_quotation_number`: the
primary key and the (non-null) quotation number.  Rows whose number is NULL
are excluded by the `startswith` filter and are simply not listed. -/
structure QRow where
  id : Nat
  quotation_number : String
deriving Repr, DecidableEq

/-- Character class of `VALID_NAME_REGEX` in models.py line 63:
`^[A-Za-z0-9\s\-\.,'()]+$` (letters, digits, whitespace, hyphen, period,
comma, apostrophe, parentheses). -/
def modelsNameChar (c : Char) : Bool :=
  c.isAlpha || c.isDigit || pyspace c || c = '-' || c = '.' || c = ',' ||
  c = Char.ofNat 39 || c = '(' || c = ')'

/-- `VALID_NAME_REGEX.match(name)` as a full match: at least one character,
all from the class. -/
def modelsValidName (s : String) : Bool :=
  !s.data.isEmpty && s.data.all modelsNameChar

/-- Character class of `VALID_NAME_REGEX` in views.py line 9:
`^[A-Za-z0-9\s\-,.()]+$` (no apostrophe, unlike the models.py class). -/
def viewsNameChar (c : Char) : Bool :=
  c.isAlpha || c.isDigit || pyspace c || c = '-' || c = ',' || c = '.' ||
  c = '(' || c = ')'

/-- `VALID_NAME_REGEX.match(name)` for the views-side pattern. -/
def viewsValidName (s : String) : Bool :=
  !s.data.isEmpty && s.data.all viewsNameChar

/-!  Fiscal year and quotation number generation (models.py lines 68-108). -/

/-- `Quotation.get_current_fiscal_year` (models.py lines 68-83), as a function
of the Nepali calendar year and month of today.  Note line 81 takes the last
THREE characters of the start year (`str(start_year)[-3:]`) while line 82
takes the last two of the end year. -/
def get_current_fiscal_year (year month : Nat) : String :=
  let start_year := if month < 4 then year - 1 else year
  let end_year := if month < 4 then year else year + 1
  let sdigits := (natStr start_year).data
  let edigits := (natStr end_year).data
  ⟨sdigits.drop (sdigits.length - 3)⟩ ++ "/" ++ ⟨edigits.drop (edigits.length - 2)⟩

/-- The rows matching `quotation_number__startswith=prefix`. -/
def matchingRows (pfx : String) (db : List QRow) : List QRow :=
  db.filter (fun r => pyStartsWith pfx r.quotation_number)

/-- `order_by('-id').first()` over the matching rows: the row with the
greatest primary key, if any. -/
def lastByIdRow (pfx : String) (db : List QRow) : Option QRow :=
  (matchingRows pfx db).foldl
    (fun acc r =>
      match acc with
      | none => some r
      | some b => if b.id < r.id then some r else some b)
    none

/-- `s.split('-')` on the underlying character list: split at every hyphen,
keeping empty segments, exactly like Python's `str.split` with an explicit
separator. -/
def splitDash : List Char → List (List Char)
  | [] => [[]]
  | c :: cs =>
    match splitDash cs with
    | [] => [[]]
    | h :: t => if c = '-' then [] :: h :: t else (c :: h) :: t

/-- `int(last_q.quotation_number.split('-')[-1])` with the
`except (IndexError, ValueError): last_num = 0` fallback
(models.py lines 97-102). -/
def lastByIdSuffix (pfx : String) (db : List QRow) : Nat :=
  match lastByIdRow pfx db with
  | none => 0
  | some r => (pyInt ⟨(splitDash r.quotation_number.data).getLastD []⟩).getD 0

/-- The `while Quotation.objects.filter(...).exists(): new_num += 1` loop
(models.py lines 105-106), run with enough fuel to scan past every taken
number. -/
def firstFree (taken : List String) (pfx : String) (n fuel : Nat) : Nat :=
  match fuel with
  | 0 => n
  | fuel + 1 =>
    if (pfx ++ "-" ++ natStr n) ∈ taken then firstFree taken pfx (n + 1) fuel
    else n

/-- `Quotation.generate_quotation_number` (models.py lines 88-108) over a
database snapshot `db` (the serialized transaction makes the read-check-return
sequence atomic, so a list snapshot is a faithful model). -/
def generate_quotation_number (npYear npMonth : Nat) (db : List QRow) : String :=
  let pfx := "Q-" ++ get_current_fiscal_year npYear npMonth
  let taken := db.map (·.quotation_number)
  pfx ++ "-" ++ natStr (firstFree taken pfx (lastByIdSuffix pfx db + 1) (taken.length + 1))

/-!  Item validation (models.py lines 113-143) and the save path. -/

/-- The distinct `ValidationError`s that `full_clean` can raise, one
constructor per distinct message.  The record embedding makes every required
key present, so the missing-key error of line 119 cannot occur.  `Item`
constructors carry the 0-based index of the offending item.
`bothDiscounts` is the index-free message of line 143. -/
inductive VErr where
  | invalidStatus
  | negSubtotalDiscount
  | vatOutOfRange
  | invalidName (idx : Nat)
  | negQtyRate (idx : Nat)
  | badDiscountType (idx : Nat)
  | negDiscountValue (idx : Nat)
  | bothDiscounts
deriving Repr, DecidableEq

/-- The checks of one iteration of the `clean_items` loop
(models.py lines 115-143); `sd` is `self.subtotal_discount`. -/
def clean_item (sd : ℚ) (idx : Nat) (it : Item) : Except VErr Unit :=
  if ¬ (modelsValidName (pstrip it.name) = true) then .error (.invalidName idx)
  else if it.qty < 0 ∨ it.rate < 0 then .error (.negQtyRate idx)
  else if ¬ (it.discount_type = "percent" ∨ it.discount_type = "amount") then
    .error (.badDiscountType idx)
  else if it.discount_value < 0 then .error (.negDiscountValue idx)
  else if sd > 0 ∧ it.discount_value > 0 then .error .bothDiscounts
  else .ok ()

/-- The `for i, data in enumerate(self.items)` loop of `clean_items`. -/
def clean_items_go (sd : ℚ) : Nat → List Item → Except VErr Unit
  | _, [] => .ok ()
  | idx, it :: rest =>
    match clean_item sd idx it with
    | .error e => .error e
    | .ok _ => clean_items_go sd (idx + 1) rest

/-- `Quotation.clean_items` (models.py lines 113-143). -/
def clean_items (sd : ℚ) (items : List Item) : Except VErr Unit :=
  clean_items_go sd 0 items

/-- Django's `full_clean`: the declared field validators (`status` choices,
`MinValueValidator` on `subtotal_discount`, min/max on `vat`) followed by
`Quotation.clean`, which calls `clean_items`.  Failure/success agrees with
Django; when several checks fail Django reports them together while this
embedding reports the first. -/
def full_clean (q : MQuotation) : Except VErr Unit :=
  if q.status ∉ STATUS_CHOICES then .error .invalidStatus
  else if q.subtotal_discount < 0 then .error .negSubtotalDiscount
  else if q.vat < 0 ∨ q.vat > 99 then .error .vatOutOfRange
  else clean_items q.subtotal_discount q.items

/-- Name normalization of one item performed by `save`
(models.py lines 160-162): `item["name"] = item["name"].strip().title()`. -/
def normalizeItemName (it : Item) : Item :=
  { it with name := pytitle (pstrip it.name) }

/-- `Quotation.save` (models.py lines 152-164): `full_clean`, then assign a
quotation number when blank, a validity date (`today + 14 days`) when blank,
then normalize every item name; an exception leaves the stored row untouched.
`npYear`/`npMonth` feed the fiscal-year resolver and `today` the validity
date; `db` is the database snapshot used by number generation. -/
def msave (npYear npMonth today : Nat) (db : List QRow) (q : MQuotation) :
    Except VErr MQuotation :=
  match full_clean q with
  | .error e => .error e
  | .ok _ =>
    let newNum := generate_quotation_number npYear npMonth db
    let q1 :=
      match q.quotation_number with
      | none => { q with quotation_number := some newNum }
      | some _ => q
    let q2 :=
      match q1.validity_date with
      | none => { q1 with validity_date := some (today + 14) }
      | some _ => q1
    .ok { q2 with items := q2.items.map normalizeItemName }

/-!  Pricing: models.py utility calculations and the serializer/admin
rollups (models.py lines 169-186, serializers.py lines 141-166,
admin.py lines 112-125).  The serializer functions iterate over
`QuotationItem` rows; the fields they read (`rate`, `qty`, `discount_type`,
`discount_value`) coincide with the `Item` fields, so `Item` carries them. -/

/-- `Quotation.item_total` (models.py lines 169-179): the per-item net
amount.  The `percent` branch multiplies by `1 - discount_value/100` with no
clamp; the `amount` branch clamps at 0 via `max`. -/
def item_total (it : Item) : ℚ :=
  let base := it.qty * it.rate
  if it.discount_type = "percent" then base * (1 - it.discount_value / 100)
  else max (base - it.discount_value) 0

/-- `Quotation.grand_total` (models.py lines 181-186).  When
`subtotal_discount > 0` it is applied as a PERCENTAGE of the running total
(line 184: `total -= total * (self.subtotal_discount / Decimal("100.00"))`),
then VAT is added. -/
def grand_total (items : List Item) (subtotal_discount vat : ℚ) : ℚ :=
  let total := items.foldl (fun a it => a + item_total it) 0
  let total := if subtotal_discount > 0 then total - total * (subtotal_discount / 100) else total
  total + total * (vat / 100)

/-- The per-item base `item.rate * item.qty` used by the serializer and the
admin. -/
def itemBase (it : Item) : ℚ := it.rate * it.qty

/-- The raw (unclamped) per-item discount inside
`QuotationSerializer.get_total_discount` (serializers.py lines 149-152). -/
def itemDiscount (it : Item) : ℚ :=
  if it.discount_type = "percent" then itemBase it * it.discount_value / 100
  else it.discount_value

/-- The per-item discount actually accumulated: `min(discount, base)`
(serializers.py line 153, admin.py line 121). -/
def itemDiscountClamped (it : Item) : ℚ := min (itemDiscount it) (itemBase it)

/-- `QuotationSerializer.get_subtotal` (serializers.py lines 141-143). -/
def get_subtotal (items : List Item) : ℚ :=
  items.foldl (fun a it => a + it.rate * it.qty) 0

/-- `QuotationSerializer.get_total_discount` (serializers.py lines 145-156):
sum of clamped per-item discounts, plus `subtotal_discount` when truthy. -/
def get_total_discount (items : List Item) (subtotal_discount : ℚ) : ℚ :=
  let td := items.foldl (fun a it => a + itemDiscountClamped it) 0
  if subtotal_discount ≠ 0 then td + subtotal_discount else td

/-- `QuotationAdmin.discount_display` (admin.py lines 112-125), identical
arithmetic to the serializer's `get_total_discount`. -/
def discount_display (items : List Item) (subtotal_discount : ℚ) : ℚ :=
  let td := items.foldl (fun a it => a + itemDiscountClamped it) 0
  if subtotal_discount ≠ 0 then td + subtotal_discount else td

/-- `QuotationSerializer.get_total_vat` (serializers.py lines 158-161). -/
def get_total_vat (items : List Item) (subtotal_discount vat : ℚ) : ℚ :=
  (get_subtotal items - get_total_discount items subtotal_discount) * vat / 100

/-- `QuotationSerializer.get_grand_total` (serializers.py lines 163-166). -/
def get_grand_total (items : List Item) (subtotal_discount vat : ℚ) : ℚ :=
  (get_subtotal items - get_total_discount items subtotal_discount) +
    get_total_vat items subtotal_discount vat

/-!  The item endpoints of `QuotationViewSet` (views.py lines 53-141).
Each returns the HTTP-level outcome together with the quotation state that is
persisted after the call (the incoming state whenever the call fails, since
`save` raises before writing). -/

/-- Outcome of a view call: 201/200 success, 400, 404, or an uncaught
`ValidationError` propagating out of `save` (HTTP 500). -/
inductive ViewOut where
  | created
  | ok
  | badRequest
  | notFound
  | error (e : VErr)
deriving Repr, DecidableEq

/-- Whether the view call succeeded (2xx). -/
def ViewOut.isSuccess : ViewOut → Bool
  | .created => true
  | .ok => true
  | _ => false

/-- Payload of `add_item` (views.py lines 58-64): every field read via
`data.get` with a default, numbers coerced with `float`. -/
structure ItemReq where
  name : String
  qty : ℚ
  rate : ℚ
  discount_type : String
  discount_value : ℚ
  unit : String
  custom_unit : String
deriving Repr, DecidableEq

/-- `QuotationViewSet.add_item` (views.py lines 53-91).  No status guard:
the name is validated, the new item gets
`id = len(quotation.items) + 1 if quotation.items else 1`, and `save` runs. -/
def add_item (npYear npMonth today : Nat) (db : List QRow) (q : MQuotation)
    (d : ItemReq) : ViewOut × MQuotation :=
  let name := pstrip d.name
  if ¬ (viewsValidName name = true) then (.badRequest, q)
  else
    let item : Item :=
      { id := some (if q.items.isEmpty then 1 else q.items.length + 1)
        name := name
        qty := d.qty
        rate := d.rate
        discount_type := d.discount_type
        discount_value := d.discount_value
        unit := d.unit
        custom_unit := d.custom_unit }
    match msave npYear npMonth today db { q with items := q.items ++ [item] } with
    | .error e => (.error e, q)
    | .ok q' => (.created, q')

/-- `str(i.get("id"))` for the JSON item dicts: a present id prints its
digits, an absent one prints `str(None)`. -/
def idStr : Option Nat → String
  | none => "None"
  | some n => natStr n

/-- `QuotationViewSet.remove_item` (views.py lines 96-109): filter out every
item whose id string equals the URL's `item_id`, 404 when nothing matched. -/
def remove_item (npYear npMonth today : Nat) (db : List QRow) (q : MQuotation)
    (item_id : String) : ViewOut × MQuotation :=
  let items := q.items
  let new_items := items.filter (fun i => ¬ (idStr i.id = item_id))
  if items.length = new_items.length then (.notFound, q)
  else
    match msave npYear npMonth today db { q with items := new_items } with
    | .error e => (.error e, q)
    | .ok q' => (.ok, q')

/-- Payload of `update_item` (views.py lines 122-135): each field optional,
falling back to the current item's value. -/
structure PatchReq where
  name : Option String
  qty : Option ℚ
  rate : Option ℚ
  discount_type : Option String
  discount_value : Option ℚ
  unit : Option String
  custom_unit : Option String
deriving Repr, DecidableEq

/-- The in-place field overwrite of the matched item
(views.py lines 122-135); `none` when the (stripped) incoming name fails the
views-side regex. -/
def applyPatch (it : Item) (p : PatchReq) : Option Item :=
  let name := pstrip (p.name.getD it.name)
  if ¬ (viewsValidName name = true) then none
  else
    some { it with
      name := name
      qty := p.qty.getD it.qty
      rate := p.rate.getD it.rate
      discount_type := p.discount_type.getD it.discount_type
      discount_value := p.discount_value.getD it.discount_value
      unit := p.unit.getD it.unit
      custom_unit := p.custom_unit.getD it.custom_unit }

/-- The `for item in items` loop of `update_item` (views.py lines 120-138):
first id match is patched and the loop returns; no match falls through to
the 404. -/
def update_loop (item_id : String) (p : PatchReq) :
    List Item → ViewOut ⊕ List Item
  | [] => .inl .notFound
  | it :: rest =>
    if idStr it.id = item_id then
      match applyPatch it p with
      | none => .inl .badRequest
      | some it' => .inr (it' :: rest)
    else
      match update_loop item_id p rest with
      | .inl r => .inl r
      | .inr rest' => .inr (it :: rest')

/-- `QuotationViewSet.update_item` (views.py lines 114-140). -/
def update_item (npYear npMonth today : Nat) (db : List QRow) (q : MQuotation)
    (item_id : String) (p : PatchReq) : ViewOut × MQuotation :=
  match update_loop item_id p q.items with
  | .inl r => (r, q)
  | .inr items' =>
    match msave npYear npMonth today db { q with items := items' } with
    | .error e => (.error e, q)
    | .ok q' => (.ok, q')

/-!  Item reconciliation in `QuotationSerializer.update`
(serializers.py lines 103-136).  In this variant items are `QuotationItem`
rows; an existing row has a numeric primary key, an incoming entry optionally
carries an `id`. -/

/-- An existing `QuotationItem` row. -/
structure RowItem where
  id : Nat
  name : String
  qty : ℚ
  rate : ℚ
  discount_type : String
  discount_value : ℚ
  unit : String
  custom_unit : String
deriving Repr, DecidableEq

/-- One incoming entry of `items_data`, optionally carrying an `id`. -/
structure IncomingItem where
  id : Option Nat
  name : String
  qty : ℚ
  rate : ℚ
  discount_type : String
  discount_value : ℚ
  unit : String
  custom_unit : String
deriving Repr, DecidableEq

/-- `for attr, value in item_data.items(): setattr(item, attr, value)`
(serializers.py lines 120-121): every payload field overwrites the row's;
the row keeps its id (the payload id, when present, equals it in the
branch where this runs). -/
def overwriteFields (r : RowItem) (d : IncomingItem) : RowItem :=
  { r with
    name := d.name
    qty := d.qty
    rate := d.rate
    discount_type := d.discount_type
    discount_value := d.discount_value
    unit := d.unit
    custom_unit := d.custom_unit }

/-- The branch condition `if item_id and item_id in existing_items`
(serializers.py line 117): a truthy id (present and nonzero) that matches an
existing row. -/
def matchesExisting (existing : List RowItem) (d : IncomingItem) : Bool :=
  match d.id with
  | some i => ¬ (i = 0) && existing.any (fun r => r.id = i)
  | none => false

/-- The `for item_data in items_data` loop of `QuotationSerializer.update`
(serializers.py lines 115-125), threading the current rows and the created
entries.  A matching entry overwrites every row with that id; any other
entry is created.  Nothing is ever deleted.  (The Python code checks
membership against the dict built before the loop; since the overwrite never
changes an id, checking against the current rows is equivalent.) -/
def upd_go (existing : List RowItem) (created : List IncomingItem) :
    List IncomingItem → List RowItem × List IncomingItem
  | [] => (existing, created)
  | d :: rest =>
    if matchesExisting existing d then
      upd_go
        (existing.map (fun r => if some r.id = d.id then overwriteFields r d else r))
        created rest
    else
      upd_go existing (created ++ [d]) rest

/-- The item reconciliation of `QuotationSerializer.update`: final row set
(first component) and the entries passed to `QuotationItem.objects.create`
(second component), in order. -/
def serializer_update_items (existing : List RowItem) (incoming : List IncomingItem) :
    List RowItem × List IncomingItem :=
  upd_go existing [] incoming

/-- The net effect of the loop on a single row: the LAST incoming entry whose
id equals the row's id wins; a row no entry matches is unchanged. -/
def owf (r : RowItem) (ds : List IncomingItem) : RowItem :=
  match (ds.filter (fun d => d.id = some r.id)).getLast? with
  | none => r
  | some d => overwriteFields r d

/-!  Shared helper lemmas. -/

theorem foldl_add_map {α : Type} (f : α → ℚ) (l : List α) (a : ℚ) :
    l.foldl (fun acc x => acc + f x) a = a + (l.map f).sum := by
  induction l generalizing a with
  | nil => simp
  | cons x xs ih =>
    simp only [List.foldl_cons, List.map_cons, List.sum_cons, ih]
    ring

/-- Concrete item used in the C1 counterexample. -/
def itC1 : Item :=
  { id := none, name := "Gadget", qty := 1, rate := 100,
    discount_type := "percent", discount_value := 200, unit := "pcs",
    custom_unit := "" }

/-- Concrete item used in the C1 witness: `qty=2, rate=3, amount, 1`. -/
def itC1amt : Item :=
  { id := none, name := "Gadget", qty := 2, rate := 3,
    discount_type := "amount", discount_value := 1, unit := "pcs",
    custom_unit := "" }

/-- Concrete item used in the C2 counterexample: `qty=2, rate=100`, no
per-item discount. -/
def itC2 : Item :=
  { id := none, name := "Gadget", qty := 2, rate := 100,
    discount_type := "percent", discount_value := 0, unit := "pcs",
    custom_unit := "" }

/-- Claim C4: for every quotation, the computed total discount equals the sum
of the per-item discount amounts plus the document-level subtotal discount —
and the admin's discount display computes the same value
(serializers.py lines 145-156, admin.py lines 112-125). -/
theorem c4_total_discount_additive (items : List Item) (subtotal_discount : ℚ) :
    get_total_discount items subtotal_discount =
      (items.map itemDiscountClamped).sum + subtotal_discount ∧
    get_total_discount items subtotal_discount =
      discount_display items subtotal_discount := by
  constructor
  · unfold get_total_discount
    rw [foldl_add_map itemDiscountClamped items 0]
    by_cases h : subtotal_discount = 0
    · simp [h]
    · simp [h]
  · rfl

/-- Claim C2, counterexample: for the single item `qty=2, rate=100,
discount 0` with `subtotalDiscount = 10` and `vatRate = 0`, the claimed
formula `(subtotal − totalDiscount) × (1 + vatRate/100)` gives 190, but the
model's `grand_total` (models.py lines 181-186) returns 180, because line 184
applies `subtotal_discount` as a PERCENTAGE of the post-item-discount total
rather than subtracting it as a money amount. -/
theorem c2_counterexample :
    grand_total [itC2] 10 0 = 180 ∧
    (get_subtotal [itC2] - get_total_discount [itC2] 10) *
      (1 + (0 : ℚ) / 100) = 190 := by
  constructor
  · norm_num [grand_total, item_total, itC2]
  · norm_num [get_subtotal, get_total_discount, itemDiscountClamped,
      itemDiscount, itemBase, itC2]

/-- Claim C2, amended: the SERIALIZER's grand total
(serializers.py lines 163-166) does satisfy
`grandTotal = (subtotal − totalDiscount) × (1 + vatRate/100)` for all inputs,
with `subtotalDiscount` subtracted as a money amount inside `totalDiscount`;
the MODEL's `grand_total` (models.py lines 181-186) instead multiplies the
post-item-discount total by `(1 − subtotalDiscount/100)` — treating the
document-level discount as a percentage — and then applies VAT after it. -/
theorem c2_grand_total_ordering (items : List Item) (subtotal_discount vat : ℚ) :
    get_grand_total items subtotal_discount vat =
      (get_subtotal items - get_total_discount items subtotal_discount) *
        (1 + vat / 100) ∧
    grand_total items subtotal_discount vat =
      (if subtotal_discount > 0 then
          ((items.map item_total).sum) * (1 - subtotal_discount / 100)
        else (items.map item_total).sum) * (1 + vat / 100) := by
  constructor
  · unfold get_grand_total get_total_vat
    ring
  · unfold grand_total
    rw [foldl_add_map item_total items 0]
    by_cases h : subtotal_discount > 0
    · simp only [if_pos h]
      ring
    · simp only [if_neg h]
      ring

/-- Claim C1, counterexample: the item `qty=1, rate=100, percent, 200` has
base 100, yet `Quotation.item_total` (models.py lines 169-179) returns −100:
a percent discount greater than 100 yields a negative net amount, so the
per-item discount amount (base − net = 200) is NOT clamped to [0, base]. -/
theorem c1_counterexample :
    item_total itC1 = -100 ∧ itC1.qty * itC1.rate = 100 ∧
    itC1.discount_type = "percent" := by
  refine ⟨by norm_num [item_total, itC1], by norm_num [itC1], rfl⟩

/-- Claim C1, amended: for a non-negative item, the per-item discount
accumulated by the serializer (`min(discount, base)`, serializers.py
line 153) does lie in [0, base], and the model's `item_total` clamps the
`amount` discount type into [0, base]; but its `percent` branch applies no
clamp, so a percent discount above 100 on a positive base yields a negative
net amount. -/
theorem c1_discount_clamping (it : Item) (h1 : 0 ≤ it.qty) (h2 : 0 ≤ it.rate)
    (h3 : 0 ≤ it.discount_value) :
    (0 ≤ itemDiscountClamped it ∧ itemDiscountClamped it ≤ itemBase it) ∧
    (¬ it.discount_type = "percent" →
      0 ≤ item_total it ∧ item_total it ≤ it.qty * it.rate) ∧
    (it.discount_type = "percent" → 100 < it.discount_value →
      0 < it.qty * it.rate → item_total it < 0) := by
  have hbase : 0 ≤ itemBase it := mul_nonneg h2 h1
  refine ⟨⟨?_, min_le_right _ _⟩, ?_, ?_⟩
  · unfold itemDiscountClamped itemDiscount
    by_cases hp : it.discount_type = "percent"
    · simp only [if_pos hp]
      have : 0 ≤ itemBase it * it.discount_value / 100 := by positivity
      exact le_min this hbase
    · simp only [if_neg hp]
      exact le_min h3 hbase
  · intro hp
    unfold item_total
    simp only [if_neg hp]
    constructor
    · exact le_max_right _ _
    · exact max_le (by linarith) (mul_nonneg h1 h2)
  · intro hp hv hb
    unfold item_total
    simp only [if_pos hp]
    have : (1 : ℚ) - it.discount_value / 100 < 0 := by linarith
    exact mul_neg_of_pos_of_neg hb this

/-- Witness for `c1_discount_clamping` at the concrete item
`qty=2, rate=3, amount, discountValue=1`. -/
theorem c1_discount_clamping_witness :
    (0 ≤ itemDiscountClamped itC1amt ∧
      itemDiscountClamped itC1amt ≤ itemBase itC1amt) ∧
    (¬ itC1amt.discount_type = "percent" →
      0 ≤ item_total itC1amt ∧ item_total itC1amt ≤ itC1amt.qty * itC1amt.rate) ∧
    (itC1amt.discount_type = "percent" → 100 < itC1amt.discount_value →
      0 < itC1amt.qty * itC1amt.rate → item_total itC1amt < 0) :=
  c1_discount_clamping itC1amt (by norm_num [itC1amt]) (by norm_num [itC1amt])
    (by norm_num [itC1amt])

/-!  C5: mutual exclusion of document-level and per-item discounts. -/

theorem clean_item_ok_not_both {sd : ℚ} {idx : Nat} {it : Item}
    (h : clean_item sd idx it = .ok ()) :
    ¬ (0 < sd ∧ 0 < it.discount_value) := by
  unfold clean_item at h
  split at h
  · exact absurd h (by simp)
  split at h
  · exact absurd h (by simp)
  split at h
  · exact absurd h (by simp)
  split at h
  · exact absurd h (by simp)
  split at h
  · exact absurd h (by simp)
  · next h5 => exact h5

theorem clean_item_both_discounts {sd : ℚ} {idx : Nat} {it : Item}
    (h : clean_item sd idx it = .error .bothDiscounts) :
    0 < sd ∧ 0 < it.discount_value := by
  unfold clean_item at h
  split at h
  · exact absurd h (by simp)
  split at h
  · exact absurd h (by simp)
  split at h
  · exact absurd h (by simp)
  split at h
  · exact absurd h (by simp)
  split at h
  · next h5 => exact h5
  · exact absurd h (by simp)

theorem clean_items_go_fails {sd : ℚ} (hsd : 0 < sd) :
    ∀ (idx : Nat) (items : List Item), (∃ it ∈ items, 0 < it.discount_value) →
      (clean_items_go sd idx items).isOk = false := by
  intro idx items
  induction items generalizing idx with
  | nil => rintro ⟨it, hmem, _⟩; cases hmem
  | cons hd tl ih =>
    rintro ⟨it, hmem, hpos⟩
    unfold clean_items_go
    cases hcl : clean_item sd idx hd with
    | error e => simp [Except.isOk, Except.toBool]
    | ok u =>
      cases u
      rcases List.mem_cons.mp hmem with heq | htl
      · subst heq
        exact absurd ⟨hsd, hpos⟩ (clean_item_ok_not_both hcl)
      · exact ih (idx + 1) ⟨it, htl, hpos⟩

theorem clean_items_go_no_both {sd : ℚ} :
    ∀ (idx : Nat) (items : List Item),
      ¬ (0 < sd ∧ ∃ it ∈ items, 0 < it.discount_value) →
      clean_items_go sd idx items ≠ .error .bothDiscounts := by
  intro idx items
  induction items generalizing idx with
  | nil => intro _ h; exact absurd h (by simp [clean_items_go])
  | cons hd tl ih =>
    intro hno
    unfold clean_items_go
    cases hcl : clean_item sd idx hd with
    | error e =>
      intro h
      have : e = .bothDiscounts := by
        injection h
      subst this
      have := clean_item_both_discounts hcl
      exact hno ⟨this.1, hd, List.mem_cons_self hd tl, this.2⟩
    | ok u =>
      cases u
      refine ih (idx + 1) ?_
      rintro ⟨h1, it, hmem, hpos⟩
      exact hno ⟨h1, it, List.mem_cons_of_mem hd hmem, hpos⟩

/-- Claim C5: when `subtotalDiscount > 0`, `clean_items`
(models.py lines 113-143) raises a `ValidationError` whenever any item has a
positive `discount_value`; and when at most one of the two is positive, the
mutual-exclusion error ("Cannot apply both subtotal discount and item
discount value.", line 143) is never the error raised. -/
theorem c5_mutual_exclusion (sd : ℚ) (items : List Item) :
    (0 < sd → (∃ it ∈ items, 0 < it.discount_value) →
      (clean_items sd items).isOk = false) ∧
    (¬ (0 < sd ∧ ∃ it ∈ items, 0 < it.discount_value) →
      clean_items sd items ≠ .error .bothDiscounts) := by
  constructor
  · intro hsd hex
    exact clean_items_go_fails hsd 0 items hex
  · intro hno
    exact clean_items_go_no_both 0 items hno

/-- Concrete item used in the C5 witness. -/
def itC5 : Item :=
  { id := none, name := "Gadget", qty := 1, rate := 1,
    discount_type := "percent", discount_value := 2, unit := "pcs",
    custom_unit := "" }

/-- Witness for `c5_mutual_exclusion`: `subtotalDiscount = 5` and one item
with `discount_value = 2` make validation fail. -/
theorem c5_mutual_exclusion_witness : (clean_items 5 [itC5]).isOk = false :=
  (c5_mutual_exclusion 5 [itC5]).1 (by norm_num)
    ⟨itC5, by simp, by norm_num [itC5]⟩

/-!  C9: name normalization on save. -/

theorem msave_ok_items {npYear npMonth today : Nat} {db : List QRow}
    {q q' : MQuotation} (h : msave npYear npMonth today db q = .ok q') :
    q'.items = q.items.map normalizeItemName := by
  unfold msave at h
  cases hfc : full_clean q with
  | error e => rw [hfc] at h; exact absurd h (by simp)
  | ok u =>
    cases u
    rw [hfc] at h
    simp only at h
    cases hqn : q.quotation_number with
    | none =>
      rw [hqn] at h
      cases hvd : q.validity_date with
      | none =>
        simp only [hvd] at h
        injection h with h
        subst h
        rfl
      | some v =>
        simp only [hvd] at h
        injection h with h
        subst h
        rfl
    | some n =>
      rw [hqn] at h
      cases hvd : q.validity_date with
      | none =>
        simp only [hvd] at h
        injection h with h
        subst h
        rfl
      | some v =>
        simp only [hvd] at h
        injection h with h
        subst h
        rfl

/-- Claim C9: on every successful save (models.py lines 152-164), each item's
name is replaced by `name.strip().title()` — stripped of surrounding
whitespace and title-cased — so the persisted name may differ in letter case
from the submitted, validated one. -/
theorem c9_save_normalizes_names (npYear npMonth today : Nat) (db : List QRow)
    (q q' : MQuotation) (h : msave npYear npMonth today db q = .ok q') :
    q'.items = q.items.map normalizeItemName ∧
    q'.items.map (·.name) = q.items.map (fun it => pytitle (pstrip it.name)) := by
  have := msave_ok_items h
  refine ⟨this, ?_⟩
  rw [this, List.map_map]
  rfl

/-- Concrete quotation used in the C9 witness: one item named
`"  widget a "`. -/
def qC9 : MQuotation :=
  { quotation_number := some "Q-082/83-1", validity_date := some 100,
    status := "pending", subtotal_discount := 0, vat := 13,
    items := [{ id := none, name := "  widget a ", qty := 1, rate := 1,
                discount_type := "percent", discount_value := 0,
                unit := "pcs", custom_unit := "" }] }

/-- The saved state of `qC9`: the item name became `"Widget A"`. -/
def qC9saved : MQuotation :=
  { quotation_number := some "Q-082/83-1", validity_date := some 100,
    status := "pending", subtotal_discount := 0, vat := 13,
    items := [{ id := none, name := "Widget A", qty := 1, rate := 1,
                discount_type := "percent", discount_value := 0,
                unit := "pcs", custom_unit := "" }] }

/-- Witness for `c9_save_normalizes_names`: saving `qC9` succeeds and
persists the title-cased name `"Widget A"`, which differs from the submitted
`"  widget a "`. -/
theorem c9_save_normalizes_names_witness :
    qC9saved.items = qC9.items.map normalizeItemName ∧
    qC9saved.items.map (·.name) =
      qC9.items.map (fun it => pytitle (pstrip it.name)) :=
  c9_save_normalizes_names 2082 5 100 [] qC9 qC9saved (by rfl)

/-!  C8: item reconciliation on update. -/

theorem overwriteFields_id (r : RowItem) (d : IncomingItem) :
    (overwriteFields r d).id = r.id := rfl

theorem overwrite_overwrite (r : RowItem) (d d' : IncomingItem) :
    overwriteFields (overwriteFields r d) d' = overwriteFields r d' := rfl

theorem owf_nil (r : RowItem) : owf r [] = r := rfl

theorem owf_cons_match {r : RowItem} {d : IncomingItem} (rest : List IncomingItem)
    (h : d.id = some r.id) : owf r (d :: rest) = owf (overwriteFields r d) rest := by
  unfold owf
  rw [overwriteFields_id]
  have hfil : (d :: rest).filter (fun d' => d'.id = some r.id) =
      d :: rest.filter (fun d' => d'.id = some r.id) := by
    simp [List.filter_cons, h]
  rw [hfil, List.getLast?_cons]
  cases hlast : (rest.filter (fun d' => d'.id = some r.id)).getLast? with
  | none => simp [overwrite_overwrite]
  | some d' => simp [overwrite_overwrite]

theorem owf_cons_nomatch {r : RowItem} {d : IncomingItem} (rest : List IncomingItem)
    (h : ¬ d.id = some r.id) : owf r (d :: rest) = owf r rest := by
  unfold owf
  have hfil : (d :: rest).filter (fun d' => d'.id = some r.id) =
      rest.filter (fun d' => d'.id = some r.id) := by
    simp [List.filter_cons, h]
  rw [hfil]

theorem matchesExisting_invariant (existing : List RowItem)
    (f : RowItem → RowItem) (hf : ∀ r, (f r).id = r.id) (d : IncomingItem) :
    matchesExisting (existing.map f) d = matchesExisting existing d := by
  unfold matchesExisting
  cases d.id with
  | none => rfl
  | some i => simp [List.any_map, Function.comp_def, hf]

theorem upd_go_spec :
    ∀ (ds : List IncomingItem) (existing : List RowItem)
      (created : List IncomingItem), (∀ r ∈ existing, r.id ≠ 0) →
      upd_go existing created ds =
        (existing.map (fun r => owf r ds),
          created ++ ds.filter (fun d => ¬ matchesExisting existing d)) := by
  intro ds
  induction ds with
  | nil =>
    intro existing created _
    simp [upd_go, owf_nil]
  | cons d rest ih =>
    intro existing created h0
    unfold upd_go
    by_cases hm : matchesExisting existing d = true
    · rw [if_pos hm]
      set f : RowItem → RowItem :=
        fun r => if some r.id = d.id then overwriteFields r d else r with hf
      have hfid : ∀ r, (f r).id = r.id := by
        intro r
        rw [hf]
        by_cases hc : some r.id = d.id
        · simp [hc, overwriteFields_id]
        · simp [hc]
      have h0' : ∀ r ∈ existing.map f, r.id ≠ 0 := by
        intro r hr
        rcases List.mem_map.mp hr with ⟨r0, hr0, hr0e⟩
        rw [← hr0e, hfid]
        exact h0 r0 hr0
      rw [ih (existing.map f) created h0']
      simp only [Prod.mk.injEq]
      refine ⟨?_, ?_⟩
      · rw [List.map_map]
        refine List.map_congr_left ?_
        intro r _
        simp only [Function.comp]
        by_cases hc : some r.id = d.id
        · rw [hf]
          simp only [if_pos hc]
          exact (owf_cons_match rest hc.symm).symm
        · rw [hf]
          simp only [if_neg hc]
          refine (owf_cons_nomatch rest ?_).symm
          intro hcc
          exact hc hcc.symm
      · have : (d :: rest).filter (fun d' => ¬ matchesExisting existing d') =
            rest.filter (fun d' => ¬ matchesExisting existing d') := by
          simp [List.filter_cons, hm]
        rw [this]
        congr 1
        refine List.filter_congr ?_
        intro d' _
        rw [matchesExisting_invariant existing f hfid d']
    · rw [if_neg hm]
      rw [ih existing (created ++ [d]) h0]
      simp only [Prod.mk.injEq]
      refine ⟨?_, ?_⟩
      · refine List.map_congr_left ?_
        intro r hr
        refine (owf_cons_nomatch rest ?_).symm
        intro hc
        apply hm
        unfold matchesExisting
        rw [hc]
        have : existing.any (fun r' => r'.id = r.id) = true :=
          List.any_eq_true.mpr ⟨r, hr, by simp⟩
        simp [this, h0 r hr]
      · have : (d :: rest).filter (fun d' => ¬ matchesExisting existing d') =
            d :: rest.filter (fun d' => ¬ matchesExisting existing d') := by
          simp [List.filter_cons, hm]
        rw [this, List.append_cons created d
          (rest.filter (fun d' => ¬ matchesExisting existing d'))]

theorem owf_id (r : RowItem) (ds : List IncomingItem) : (owf r ds).id = r.id := by
  unfold owf
  cases (ds.filter (fun d => d.id = some r.id)).getLast? with
  | none => rfl
  | some d => rfl

/-- Claim C8, counterexample: with the single existing row of id 1 and an
EMPTY incoming item list, `QuotationSerializer.update`
(serializers.py lines 103-136) keeps row 1 — the claimed deletion of
existing items whose id does not appear in the incoming set never happens
(the code has no delete branch at all). -/
theorem c8_counterexample :
    ((serializer_update_items
        [{ id := 1, name := "Gadget", qty := 1, rate := 1,
           discount_type := "percent", discount_value := 0, unit := "pcs",
           custom_unit := "" }] []).1).map (·.id) = [1] := rfl

/-- Claim C8, amended: the reconciliation in `QuotationSerializer.update`
creates every incoming entry with no id, id 0, or an unknown id; overwrites
the fields of the row matching each incoming entry's id (the last matching
entry wins); and deletes nothing — every existing row id survives, whether
or not it appears in the incoming set. -/
theorem c8_reconciliation (existing : List RowItem) (incoming : List IncomingItem)
    (h0 : ∀ r ∈ existing, r.id ≠ 0) :
    (serializer_update_items existing incoming).1 =
      existing.map (fun r => owf r incoming) ∧
    (serializer_update_items existing incoming).2 =
      incoming.filter (fun d => ¬ matchesExisting existing d) ∧
    ((serializer_update_items existing incoming).1).map (·.id) =
      existing.map (·.id) := by
  have h := upd_go_spec incoming existing [] h0
  unfold serializer_update_items
  refine ⟨?_, ?_, ?_⟩
  · rw [h]
  · rw [h]; simp
  · rw [h, List.map_map]
    refine List.map_congr_left ?_
    intro r _
    exact owf_id r incoming

/-- Concrete rows for the C8 witness. -/
def rowC8 : RowItem :=
  { id := 1, name := "Old", qty := 1, rate := 1, discount_type := "percent",
    discount_value := 0, unit := "pcs", custom_unit := "" }

/-- Concrete incoming entries for the C8 witness: an update of row 1 and a
fresh creation. -/
def incC8 : List IncomingItem :=
  [{ id := some 1, name := "New", qty := 2, rate := 3,
     discount_type := "amount", discount_value := 1, unit := "kg",
     custom_unit := "" },
   { id := none, name := "Fresh", qty := 4, rate := 5,
     discount_type := "percent", discount_value := 0, unit := "pcs",
     custom_unit := "" }]

/-- Witness for `c8_reconciliation` on one existing row and two incoming
entries. -/
theorem c8_reconciliation_witness :
    (serializer_update_items [rowC8] incC8).1 =
      [rowC8].map (fun r => owf r incC8) ∧
    (serializer_update_items [rowC8] incC8).2 =
      incC8.filter (fun d => ¬ matchesExisting [rowC8] d) ∧
    ((serializer_update_items [rowC8] incC8).1).map (·.id) =
      [rowC8].map (·.id) :=
  c8_reconciliation [rowC8] incC8 (by simp [rowC8])

/-!  C7: mutations on a `closed` quotation. -/

theorem update_loop_inl {iid : String} {p : PatchReq} :
    ∀ {items : List Item} {r : ViewOut}, update_loop iid p items = .inl r →
      r = .notFound ∨ r = .badRequest := by
  intro items
  induction items with
  | nil =>
    intro r hr
    unfold update_loop at hr
    injection hr with hr
    exact Or.inl hr.symm
  | cons it rest ih =>
    intro r hr
    unfold update_loop at hr
    split at hr
    · cases hap : applyPatch it p with
      | none =>
        rw [hap] at hr
        injection hr with hr
        exact Or.inr hr.symm
      | some it' =>
        rw [hap] at hr
        exact absurd hr (by simp)
    · cases hrec : update_loop iid p rest with
      | inl r' =>
        rw [hrec] at hr
        injection hr with hr
        subst hr
        exact ih hrec
      | inr rest' =>
        rw [hrec] at hr
        exact absurd hr (by simp)

theorem full_clean_closed {q : MQuotation} (h : q.status = "closed") :
    full_clean q = .error .invalidStatus := by
  unfold full_clean
  rw [h]
  simp [STATUS_CHOICES]

theorem msave_closed_fails {npYear npMonth today : Nat} {db : List QRow}
    {q : MQuotation} (h : q.status = "closed") :
    msave npYear npMonth today db q = .error .invalidStatus := by
  unfold msave
  rw [full_clean_closed h]

/-- Claim C7, counterexample: on a concrete `closed` quotation with one item
and a valid `add_item` payload, the call fails — but with the uncaught
`ValidationError` "Value 'closed' is not a valid choice" raised by
`full_clean` (because `closed` is missing from `STATUS_CHOICES`,
models.py lines 13-18), not with any `DocumentImmutable`/`InvalidTransition`
error: no such error exists anywhere in the code, and views.py lines 53-141
contain no status guard at all. -/
theorem c7_counterexample :
    add_item 2082 5 100 []
      { quotation_number := some "Q-082/83-1", validity_date := some 100,
        status := "closed", subtotal_discount := 0, vat := 13, items := [] }
      { name := "Gadget", qty := 1, rate := 1, discount_type := "percent",
        discount_value := 0, unit := "pcs", custom_unit := "" } =
    (.error .invalidStatus,
      { quotation_number := some "Q-082/83-1", validity_date := some 100,
        status := "closed", subtotal_discount := 0, vat := 13,
        items := [] }) := rfl

/-- Claim C7, amended: every attempted mutation of a `closed` quotation —
direct save (field edit), `add_item`, `remove_item`, `update_item` — does
fail and does leave the persisted state unchanged; but the failure is the
`ValidationError` for an invalid status choice (`closed` is absent from
`STATUS_CHOICES`), raised by `full_clean` inside `save`, not a
`DocumentImmutable`/`InvalidTransition` error, which the code never
defines. -/
theorem c7_closed_immutable (npYear npMonth today : Nat) (db : List QRow)
    (q : MQuotation) (h : q.status = "closed") (d : ItemReq) (iid : String)
    (p : PatchReq) :
    ((add_item npYear npMonth today db q d).1.isSuccess = false ∧
      (add_item npYear npMonth today db q d).2 = q) ∧
    ((remove_item npYear npMonth today db q iid).1.isSuccess = false ∧
      (remove_item npYear npMonth today db q iid).2 = q) ∧
    ((update_item npYear npMonth today db q iid p).1.isSuccess = false ∧
      (update_item npYear npMonth today db q iid p).2 = q) ∧
    (msave npYear npMonth today db q).isOk = false := by
  have hsave2 : ∀ its : List Item,
      msave npYear npMonth today db { q with items := its } =
        .error .invalidStatus := by
    intro its
    apply msave_closed_fails
    exact h
  refine ⟨?_, ?_, ?_, ?_⟩
  · simp only [add_item]
    by_cases hn : ¬ viewsValidName (pstrip d.name) = true
    · rw [if_pos hn]
      exact ⟨rfl, rfl⟩
    · rw [if_neg hn, hsave2]
      exact ⟨rfl, rfl⟩
  · simp only [remove_item]
    by_cases hl : q.items.length =
        (q.items.filter fun i => ¬ (idStr i.id = iid)).length
    · rw [if_pos hl]
      exact ⟨rfl, rfl⟩
    · rw [if_neg hl, hsave2]
      exact ⟨rfl, rfl⟩
  · simp only [update_item]
    cases hql : update_loop iid p q.items with
    | inl r =>
      refine ⟨?_, rfl⟩
      rcases update_loop_inl hql with hr | hr <;> subst hr <;> rfl
    | inr items' =>
      dsimp only
      rw [hsave2]
      exact ⟨rfl, rfl⟩
  · rw [msave_closed_fails h]
    rfl

/-- Concrete closed quotation for the C7 witness. -/
def qC7 : MQuotation :=
  { quotation_number := some "Q-082/83-1", validity_date := some 100,
    status := "closed", subtotal_discount := 0, vat := 13,
    items := [{ id := some 1, name := "Gadget", qty := 1, rate := 1,
                discount_type := "percent", discount_value := 0,
                unit := "pcs", custom_unit := "" }] }

/-- Concrete request payloads for the C7 witness. -/
def dC7 : ItemReq :=
  { name := "Widget", qty := 1, rate := 2, discount_type := "percent",
    discount_value := 0, unit := "pcs", custom_unit := "" }

/-- Concrete patch payload for the C7 witness. -/
def pC7 : PatchReq :=
  { name := some "Widget", qty := none, rate := none, discount_type := none,
    discount_value := none, unit := none, custom_unit := none }

/-- Witness for `c7_closed_immutable` on a concrete closed quotation. -/
theorem c7_closed_immutable_witness :
    ((add_item 2082 5 100 [] qC7 dC7).1.isSuccess = false ∧
      (add_item 2082 5 100 [] qC7 dC7).2 = qC7) ∧
    ((remove_item 2082 5 100 [] qC7 "1").1.isSuccess = false ∧
      (remove_item 2082 5 100 [] qC7 "1").2 = qC7) ∧
    ((update_item 2082 5 100 [] qC7 "1" pC7).1.isSuccess = false ∧
      (update_item 2082 5 100 [] qC7 "1" pC7).2 = qC7) ∧
    (msave 2082 5 100 [] qC7).isOk = false :=
  c7_closed_immutable 2082 5 100 [] qC7 rfl dC7 "1" pC7

/-!  C10: item ids under add_item / remove_item. -/

theorem normalizeItemName_id (it : Item) :
    (normalizeItemName it).id = it.id := rfl

/-- Starting state for the C10 counterexample: an already-numbered pending
quotation with no items. -/
def qC10 : MQuotation :=
  { quotation_number := some "Q-082/83-1", validity_date := some 100,
    status := "pending", subtotal_discount := 0, vat := 13, items := [] }

/-- `add_item` payload named "A" for the C10 counterexample. -/
def reqA : ItemReq :=
  { name := "A", qty := 1, rate := 1, discount_type := "percent",
    discount_value := 0, unit := "pcs", custom_unit := "" }

/-- `add_item` payload named "B" for the C10 counterexample. -/
def reqB : ItemReq := { reqA with name := "B" }

/-- `add_item` payload named "C" for the C10 counterexample. -/
def reqC : ItemReq := { reqA with name := "C" }

/-- The state after add("A"), add("B"), remove id 1, add("C"). -/
def qC10final : MQuotation :=
  (add_item 2082 5 100 []
    ((remove_item 2082 5 100 []
      ((add_item 2082 5 100 []
        ((add_item 2082 5 100 [] qC10 reqA).2) reqB).2) "1").2) reqC).2

/-- Claim C10, counterexample: starting from a quotation with no items, the
sequence add("A"), add("B"), remove id 1, add("C") — every call succeeding —
ends with the item id list `[2, 2]`: `add_item` (views.py line 74) assigns
`len(items) + 1`, which collides with an existing id once an earlier item
has been removed, so ids are NOT pairwise distinct. -/
theorem c10_counterexample :
    qC10final.items.map (·.id) = [some 2, some 2] ∧
    ¬ ([some 2, some 2] : List (Option Nat)).Nodup := by
  constructor
  · decide
  · simp

/-- Claim C10, amended: along add-only sequences the ids stay canonical —
a quotation whose item ids are exactly `1, …, n` gets `n+1` for the next
successful `add_item`, keeping the ids pairwise distinct — but after a
removal the `len(items) + 1` assignment can duplicate an existing id (see
the counterexample). -/
theorem c10_add_only_ids_distinct (npYear npMonth today : Nat) (db : List QRow)
    (q : MQuotation) (d : ItemReq) (r : ViewOut) (q' : MQuotation)
    (hcan : q.items.map (·.id) = (List.range' 1 q.items.length).map some)
    (h : add_item npYear npMonth today db q d = (r, q'))
    (hs : r.isSuccess = true) :
    q'.items.map (·.id) = (List.range' 1 (q.items.length + 1)).map some ∧
    (q'.items.map (·.id)).Nodup := by
  simp only [add_item] at h
  by_cases hn : ¬ viewsValidName (pstrip d.name) = true
  · rw [if_pos hn] at h
    injection h with h1 h2
    rw [← h1] at hs
    exact absurd hs (by simp [ViewOut.isSuccess])
  · rw [if_neg hn] at h
    cases hms : msave npYear npMonth today db
        { q with items := q.items ++
            [{ id := some (if q.items.isEmpty = true then 1 else q.items.length + 1),
               name := pstrip d.name, qty := d.qty, rate := d.rate,
               discount_type := d.discount_type,
               discount_value := d.discount_value, unit := d.unit,
               custom_unit := d.custom_unit }] } with
    | error e =>
      rw [hms] at h
      injection h with h1 h2
      rw [← h1] at hs
      exact absurd hs (by simp [ViewOut.isSuccess])
    | ok qq =>
      rw [hms] at h
      injection h with h1 h2
      rw [← h2]
      have hitems := msave_ok_items hms
      dsimp only at hitems
      have hid : (some (if q.items.isEmpty = true then 1 else q.items.length + 1)
          : Option Nat) = some (q.items.length + 1) := by
        by_cases he : q.items.isEmpty = true
        · have : q.items.length = 0 := by
            rwa [List.isEmpty_iff_length_eq_zero] at he
          simp [he, this]
        · simp [he]
      have hcomp : ((·.id) ∘ normalizeItemName : Item → Option Nat) = (·.id) := by
        funext it
        simp [Function.comp, normalizeItemName_id]
      have hmap : qq.items.map (·.id) =
          q.items.map (·.id) ++ [some (q.items.length + 1)] := by
        rw [hitems, List.map_map, hcomp, List.map_append]
        simp [hid]
      have hconcat : List.range' 1 (q.items.length + 1) =
          List.range' 1 q.items.length ++ [q.items.length + 1] := by
        have h2 := @List.range'_concat 1 1 q.items.length
        simpa [Nat.add_comm] using h2
      constructor
      · rw [hmap, hcan, hconcat]
        simp
      · rw [hmap, hcan]
        have h1 : (List.range' 1 q.items.length).map some ++
              [some (q.items.length + 1)] =
            ((List.range' 1 q.items.length) ++ [q.items.length + 1]).map some := by
          simp
        rw [h1, ← hconcat]
        refine List.Nodup.map (Option.some_injective Nat) ?_
        exact List.nodup_range' 1 (q.items.length + 1)

/-- The state after `add_item 2082 5 100 [] qC10 reqA`. -/
def qC10a : MQuotation :=
  { quotation_number := some "Q-082/83-1", validity_date := some 100,
    status := "pending", subtotal_discount := 0, vat := 13,
    items := [{ id := some 1, name := "A", qty := 1, rate := 1,
                discount_type := "percent", discount_value := 0,
                unit := "pcs", custom_unit := "" }] }

/-- Witness for `c10_add_only_ids_distinct`: adding "A" to the empty item
list yields ids `[1]`, still pairwise distinct. -/
theorem c10_add_only_ids_distinct_witness :
    qC10a.items.map (·.id) = (List.range' 1 (qC10.items.length + 1)).map some ∧
    (qC10a.items.map (·.id)).Nodup :=
  c10_add_only_ids_distinct 2082 5 100 [] qC10 reqA .created qC10a
    (by decide) (by decide) rfl

/-!  C6: fiscal-year label shape and the first number under a fresh
prefix. -/

/-- The "YY/YY" shape claimed by the spec: exactly two digits, a slash, two
digits.  (This checker follows the spec's words, for comparison with the
label the code builds.) -/
def isYYslashYY (s : String) : Bool :=
  match s.data with
  | [a, b, c, d, e] => a.isDigit && b.isDigit && c = '/' && d.isDigit && e.isDigit
  | _ => false

/-- Claim C6, counterexample: for Nepali date year 2082, month 5, the code's
label is `"082/83"` — three digits before the slash, because line 81 of
models.py slices `str(start_year)[-3:]` — which is not of the claimed
"YY/YY" form. -/
theorem c6_counterexample :
    get_current_fiscal_year 2082 5 = "082/83" ∧
    isYYslashYY (get_current_fiscal_year 2082 5) = false := by
  constructor
  · decide
  · decide

theorem pyStartsWith_append (p t : String) : pyStartsWith p (p ++ t) = true := by
  unfold pyStartsWith
  rw [String.data_append]
  exact List.isPrefixOf_iff_prefix.mpr (List.prefix_append _ _)

theorem natStr_data (n : Nat) : (natStr n).data = (toDigitsLE n).reverse := rfl

theorem natStr_data_all_digit (n : Nat) :
    ∀ c ∈ (natStr n).data, c.isDigit = true := by
  intro c hc
  rw [natStr_data, List.mem_reverse] at hc
  exact toDigitsLE_all_digit n c hc

theorem natStr_length_ge {k n : Nat} (h : 10 ^ k ≤ n) :
    k < (natStr n).data.length := by
  rw [natStr_data, List.length_reverse]
  exact le_toDigitsLE_length h

theorem natStr_length_le {k n : Nat} (hk : 0 < k) (h : n < 10 ^ k) :
    (natStr n).data.length ≤ k := by
  rw [natStr_data, List.length_reverse]
  exact toDigitsLE_length_le hk h

/-- Claim C6, amended: for any date in a four-digit Nepali year
(1000 ≤ y ≤ 9998), the label built by `get_current_fiscal_year` has the form
THREE digits, a slash, two digits (`str(start_year)[-3:]` keeps three
characters); and the first quotation number generated under a fresh prefix
(no existing number starts with it) is `"Q-" + label + "-1"` — the integer
suffix does start at 1 with no leading zeros. -/
theorem c6_label_and_first_number (y m : Nat) (db : List QRow)
    (h1 : 1000 ≤ y) (h2 : y ≤ 9998)
    (hfresh : ∀ r ∈ db,
      pyStartsWith ("Q-" ++ get_current_fiscal_year y m) r.quotation_number = false) :
    (∃ a b c d e : Char,
      (get_current_fiscal_year y m).data = [a, b, c, '/', d, e] ∧
      a.isDigit ∧ b.isDigit ∧ c.isDigit ∧ d.isDigit ∧ e.isDigit) ∧
    generate_quotation_number y m db =
      ("Q-" ++ get_current_fiscal_year y m) ++ "-1" := by
  constructor
  · have hexp : get_current_fiscal_year y m =
        ⟨((natStr (if m < 4 then y - 1 else y)).data).drop
          ((natStr (if m < 4 then y - 1 else y)).data.length - 3)⟩ ++ "/" ++
        ⟨((natStr (if m < 4 then y else y + 1)).data).drop
          ((natStr (if m < 4 then y else y + 1)).data.length - 2)⟩ := rfl
    set sy := if m < 4 then y - 1 else y with hsy_def
    set ey := if m < 4 then y else y + 1 with hey_def
    have hsy1 : 10 ^ 2 ≤ sy := by
      rw [hsy_def]; split <;> omega
    have hsy2 : sy < 10 ^ 4 := by
      rw [hsy_def]; split <;> omega
    have hey1 : 10 ^ 3 ≤ ey := by
      rw [hey_def]; split <;> omega
    have hey2 : ey < 10 ^ 4 := by
      rw [hey_def]; split <;> omega
    have hlen_s1 : 3 ≤ (natStr sy).data.length := natStr_length_ge hsy1
    have hlen_s2 : (natStr sy).data.length ≤ 4 :=
      natStr_length_le (by omega) hsy2
    have hlen_e1 : 4 ≤ (natStr ey).data.length := natStr_length_ge hey1
    have hlen_e2 : (natStr ey).data.length ≤ 4 :=
      natStr_length_le (by omega) hey2
    have hdrop_s : ((natStr sy).data.drop ((natStr sy).data.length - 3)).length = 3 := by
      rw [List.length_drop]; omega
    have hdrop_e : ((natStr ey).data.drop ((natStr ey).data.length - 2)).length = 2 := by
      rw [List.length_drop]; omega
    obtain ⟨a, b, c, habc⟩ := List.length_eq_three.mp hdrop_s
    obtain ⟨d, e, hde⟩ := List.length_eq_two.mp hdrop_e
    have hmem_s : ∀ x ∈ (natStr sy).data.drop ((natStr sy).data.length - 3),
        x.isDigit = true := by
      intro x hx
      exact natStr_data_all_digit sy x (List.mem_of_mem_drop hx)
    have hmem_e : ∀ x ∈ (natStr ey).data.drop ((natStr ey).data.length - 2),
        x.isDigit = true := by
      intro x hx
      exact natStr_data_all_digit ey x (List.mem_of_mem_drop hx)
    refine ⟨a, b, c, d, e, ?_, ?_, ?_, ?_, ?_, ?_⟩
    · rw [hexp, String.data_append, String.data_append]
      rw [show (⟨(natStr sy).data.drop ((natStr sy).data.length - 3)⟩ : String).data =
            (natStr sy).data.drop ((natStr sy).data.length - 3) from rfl]
      rw [show (⟨(natStr ey).data.drop ((natStr ey).data.length - 2)⟩ : String).data =
            (natStr ey).data.drop ((natStr ey).data.length - 2) from rfl]
      rw [habc, hde]
      rfl
    · exact hmem_s a (by rw [habc]; simp)
    · exact hmem_s b (by rw [habc]; simp)
    · exact hmem_s c (by rw [habc]; simp)
    · exact hmem_e d (by rw [hde]; simp)
    · exact hmem_e e (by rw [hde]; simp)
  · have hmatch : matchingRows ("Q-" ++ get_current_fiscal_year y m) db = [] := by
      refine List.filter_eq_nil_iff.mpr ?_
      intro r hr
      rw [hfresh r hr]
      simp
    have hsuffix : lastByIdSuffix ("Q-" ++ get_current_fiscal_year y m) db = 0 := by
      unfold lastByIdSuffix lastByIdRow
      rw [hmatch]
      rfl
    have hnotmem :
        ("Q-" ++ get_current_fiscal_year y m) ++ "-" ++ natStr 1 ∉
          db.map (·.quotation_number) := by
      intro hmem
      rcases List.mem_map.mp hmem with ⟨r, hr, hqn⟩
      have := hfresh r hr
      rw [hqn] at this
      rw [show ("Q-" ++ get_current_fiscal_year y m) ++ "-" ++ natStr 1 =
            ("Q-" ++ get_current_fiscal_year y m) ++ ("-" ++ natStr 1) from
          String.append_assoc _ _ _] at this
      rw [pyStartsWith_append] at this
      exact absurd this (by simp)
    simp only [generate_quotation_number]
    rw [hsuffix, Nat.zero_add]
    rw [show firstFree (db.map (·.quotation_number))
          ("Q-" ++ get_current_fiscal_year y m) 1
          ((db.map (·.quotation_number)).length + 1) =
        if ("Q-" ++ get_current_fiscal_year y m) ++ "-" ++ natStr 1 ∈
            db.map (·.quotation_number) then
          firstFree (db.map (·.quotation_number))
            ("Q-" ++ get_current_fiscal_year y m) 2
            ((db.map (·.quotation_number)).length)
        else 1 from rfl]
    rw [if_neg hnotmem]
    rw [String.append_assoc]
    rfl

/-- Witness for `c6_label_and_first_number` at year 2082, month 5, empty
database. -/
theorem c6_label_and_first_number_witness :
    (∃ a b c d e : Char,
      (get_current_fiscal_year 2082 5).data = [a, b, c, '/', d, e] ∧
      a.isDigit ∧ b.isDigit ∧ c.isDigit ∧ d.isDigit ∧ e.isDigit) ∧
    generate_quotation_number 2082 5 [] =
      ("Q-" ++ get_current_fiscal_year 2082 5) ++ "-1" :=
  c6_label_and_first_number 2082 5 [] (by omega) (by omega)
    (by intro r hr; cases hr)

/-!  C3: the quotation number generator. -/

theorem string_data_inj {s t : String} (h : s.data = t.data) : s = t := by
  cases s
  cases t
  exact congrArg String.mk h

theorem candidate_injective (pfx : String) :
    Function.Injective (fun n => pfx ++ "-" ++ natStr n) := by
  intro a b h
  simp only at h
  have hd : (pfx ++ "-" ++ natStr a).data = (pfx ++ "-" ++ natStr b).data :=
    congrArg String.data h
  rw [String.data_append, String.data_append, String.data_append,
    String.data_append] at hd
  have h2 : (natStr a).data = (natStr b).data := by
    rw [List.append_assoc, List.append_assoc] at hd
    have := List.append_cancel_left hd
    exact List.append_cancel_left this
  exact natStr_injective (string_data_inj h2)

theorem firstFree_spec (taken : List String) (pfx : String) :
    ∀ (fuel n : Nat),
      (∃ m, n ≤ m ∧ m < n + fuel ∧ (pfx ++ "-" ++ natStr m) ∉ taken) →
      (pfx ++ "-" ++ natStr (firstFree taken pfx n fuel)) ∉ taken ∧
      n ≤ firstFree taken pfx n fuel ∧
      ∀ j, n ≤ j → j < firstFree taken pfx n fuel →
        (pfx ++ "-" ++ natStr j) ∈ taken := by
  intro fuel
  induction fuel with
  | zero =>
    rintro n ⟨m, hm1, hm2, _⟩
    omega
  | succ fuel ih =>
    rintro n ⟨m, hm1, hm2, hm3⟩
    rw [show firstFree taken pfx n (fuel + 1) =
        if (pfx ++ "-" ++ natStr n) ∈ taken then
          firstFree taken pfx (n + 1) fuel
        else n from rfl]
    by_cases hn : (pfx ++ "-" ++ natStr n) ∈ taken
    · rw [if_pos hn]
      have hmn : ¬ m = n := by
        intro he
        subst he
        exact hm3 hn
      have hih := ih (n + 1) ⟨m, by omega, by omega, hm3⟩
      refine ⟨hih.1, by omega, ?_⟩
      intro j hj1 hj2
      by_cases hjn : j = n
      · subst hjn; exact hn
      · exact hih.2.2 j (by omega) hj2
    · rw [if_neg hn]
      exact ⟨hn, Nat.le_refl n, fun j hj1 hj2 => by omega⟩

theorem exists_free (taken : List String) (pfx : String) (n : Nat) :
    ∃ m, n ≤ m ∧ m < n + (taken.length + 1) ∧
      (pfx ++ "-" ++ natStr m) ∉ taken := by
  by_contra hcon
  push_neg at hcon
  have hsub : (List.range' n (taken.length + 1)).map
      (fun m => pfx ++ "-" ++ natStr m) ⊆ taken := by
    intro s hs
    rcases List.mem_map.mp hs with ⟨m, hm, he⟩
    rcases List.mem_range'.mp hm with ⟨i, hi, hmi⟩
    rw [← he]
    exact hcon m (by omega) (by omega)
  have hnodup : ((List.range' n (taken.length + 1)).map
      (fun m => pfx ++ "-" ++ natStr m)).Nodup :=
    (List.nodup_range' n (taken.length + 1)).map (candidate_injective pfx)
  have hlen := (List.subperm_of_subset hnodup hsub).length_le
  rw [List.length_map, List.length_range'] at hlen
  omega

/-- Claim C3, counterexample: with the rows `(id 1, "Q-081/82-10")` and
`(id 2, "Q-081/82-5")` in the database, the generator
(models.py lines 88-108) returns `"Q-081/82-6"`: it reads the suffix of the
row with the highest PRIMARY KEY (`order_by('-id')`, insertion order), not
the highest integer suffix, so the returned suffix 6 is NOT strictly greater
than the existing suffix 10. -/
theorem c3_counterexample :
    generate_quotation_number 2081 5 [⟨1, "Q-081/82-10"⟩, ⟨2, "Q-081/82-5"⟩] =
      "Q-081/82-6" ∧
    "Q-081/82-10" ∈
      ([⟨1, "Q-081/82-10"⟩, ⟨2, "Q-081/82-5"⟩] : List QRow).map
        (·.quotation_number) ∧
    (6 : Nat) < 10 := by
  refine ⟨by decide, by decide, by omega⟩

/-- Claim C3, amended: for every database state, the generator returns the
FIRST free number whose integer suffix is strictly greater than the suffix
parsed from the MOST RECENTLY INSERTED row under the prefix (the
`order_by('-id')` row — not the highest integer suffix under the prefix),
and the returned number is never one already taken. -/
theorem c3_sequence_generator (y m : Nat) (db : List QRow) :
    generate_quotation_number y m db ∉ db.map (·.quotation_number) ∧
    ∃ k, lastByIdSuffix ("Q-" ++ get_current_fiscal_year y m) db < k ∧
      generate_quotation_number y m db =
        ("Q-" ++ get_current_fiscal_year y m) ++ "-" ++ natStr k ∧
      ∀ j, lastByIdSuffix ("Q-" ++ get_current_fiscal_year y m) db < j →
        j < k →
        ("Q-" ++ get_current_fiscal_year y m) ++ "-" ++ natStr j ∈
          db.map (·.quotation_number) := by
  have hspec := firstFree_spec (db.map (·.quotation_number))
    ("Q-" ++ get_current_fiscal_year y m)
    ((db.map (·.quotation_number)).length + 1)
    (lastByIdSuffix ("Q-" ++ get_current_fiscal_year y m) db + 1)
    (exists_free (db.map (·.quotation_number))
      ("Q-" ++ get_current_fiscal_year y m)
      (lastByIdSuffix ("Q-" ++ get_current_fiscal_year y m) db + 1))
  constructor
  · exact hspec.1
  · refine ⟨firstFree (db.map (·.quotation_number))
      ("Q-" ++ get_current_fiscal_year y m)
      (lastByIdSuffix ("Q-" ++ get_current_fiscal_year y m) db + 1)
      ((db.map (·.quotation_number)).length + 1), ?_, rfl, ?_⟩
    · have := hspec.2.1
      omega
    · intro j hj1 hj2
      exact hspec.2.2 j (by omega) hj2

/-- Witness for `c3_sequence_generator` on the two-row database of the
counterexample scenario. -/
theorem c3_sequence_generator_witness :
    generate_quotation_number 2081 5 [⟨3, "Q-081/82-2"⟩, ⟨4, "Q-081/82-3"⟩] ∉
      ([⟨3, "Q-081/82-2"⟩, ⟨4, "Q-081/82-3"⟩] : List QRow).map
        (·.quotation_number) ∧
    ∃ k, lastByIdSuffix ("Q-" ++ get_current_fiscal_year 2081 5)
        [⟨3, "Q-081/82-2"⟩, ⟨4, "Q-081/82-3"⟩] < k ∧
      generate_quotation_number 2081 5 [⟨3, "Q-081/82-2"⟩, ⟨4, "Q-081/82-3"⟩] =
        ("Q-" ++ get_current_fiscal_year 2081 5) ++ "-" ++ natStr k ∧
      ∀ j, lastByIdSuffix ("Q-" ++ get_current_fiscal_year 2081 5)
          [⟨3, "Q-081/82-2"⟩, ⟨4, "Q-081/82-3"⟩] < j →
        j < k →
        ("Q-" ++ get_current_fiscal_year 2081 5) ++ "-" ++ natStr j ∈
          ([⟨3, "Q-081/82-2"⟩, ⟨4, "Q-081/82-3"⟩] : List QRow).map
            (·.quotation_number) :=
  c3_sequence_generator 2081 5 [⟨3, "Q-081/82-2"⟩, ⟨4, "Q-081/82-3"⟩]

end QuotationManager
